import Mathlib

/-!
Verification of the MiniStateAffairs ingestion pipeline.

Shallow embedding of:
* the work-item store (`src/db/videoRepository.ts` variants embedded in
  `src/db/schema.sql`, plus the conditional-claim variant used by
  `src/services/ingestService.ts`),
* error classification (`src/utils/http.ts`),
* retry with backoff (`src/utils/retry.ts`),
* the streaming transfer pipeline (`src/clients/s3Client.ts` and the
  gated variant with the readiness gate),
* shared failure handling (`IngestService.handleFailure`).

The relational store is modelled as a list of rows; each SQL statement
becomes a pure function from table (and a `now` timestamp) to table.
-/

namespace MiniStateAffairs

/-- Video pipeline status, from `src/db/types.ts` (`VideoStatus`). -/
inductive VideoStatus where
  | queued
  | pending
  | downloading
  | downloaded
  | transcribing
  | completed
  | failed
  | permanent_failure
deriving DecidableEq, Repr

/-- One row of the `videos` table, from `src/db/types.ts` (`VideoRow`) and
`schema.sql`. Timestamps and the hearing date are integers (epoch seconds). -/
structure VideoRow where
  id : String
  state : String
  source : String
  external_id : String
  slug : String
  title : String
  hearing_date : Int
  video_page_url : String
  original_video_url : Option String
  s3_key : Option String
  status : VideoStatus
  retry_count : Nat
  last_error : Option String
  created_at : Int
  updated_at : Int
deriving DecidableEq, Repr

/-- The `videos` table. -/
abbrev VideoTable := List VideoRow

/-- Well-formed table: row ids are pairwise distinct (`id` is the primary key). -/
def wfTable (t : VideoTable) : Prop :=
  t.Pairwise (fun a b => a.id ≠ b.id)

namespace VideoRepository

/-- Input of `upsertDiscoveredVideo`, from `UpsertDiscoveredVideoInput`. -/
structure UpsertDiscoveredVideoInput where
  state : String
  source : String
  externalId : String
  slug : String
  title : String
  hearingDate : Int
  videoPageUrl : String
  originalVideoUrl : String
deriving DecidableEq, Repr

/-- The `(state, source, external_id)` identity tuple of the row matches the
input (the `unique_video_source` conflict target). -/
def identityMatches (r : VideoRow) (i : UpsertDiscoveredVideoInput) : Bool :=
  r.state == i.state && r.source == i.source && r.external_id == i.externalId

/-- The `DO UPDATE SET` arm of `upsertDiscoveredVideo`: updates slug, title and
the two URLs, stamps `updated_at = NOW()`; all other columns keep their value. -/
def applyUpsertUpdate (r : VideoRow) (i : UpsertDiscoveredVideoInput) (now : Int) : VideoRow :=
  { r with
      slug := i.slug
      title := i.title
      video_page_url := i.videoPageUrl
      original_video_url := some i.originalVideoUrl
      updated_at := now }

/-- The freshly inserted row of `upsertDiscoveredVideo`: status `'pending'`,
column defaults `retry_count = 0`, `s3_key`/`last_error` NULL,
`created_at`/`updated_at` default to `NOW()`. -/
def freshRow (i : UpsertDiscoveredVideoInput) (newId : String) (now : Int) : VideoRow :=
  { id := newId
    state := i.state
    source := i.source
    external_id := i.externalId
    slug := i.slug
    title := i.title
    hearing_date := i.hearingDate
    video_page_url := i.videoPageUrl
    original_video_url := some i.originalVideoUrl
    s3_key := none
    status := .pending
    retry_count := 0
    last_error := none
    created_at := now
    updated_at := now }

/-- `VideoRepository.upsertDiscoveredVideo`:
`INSERT ... ON CONFLICT (state, source, external_id) DO UPDATE SET slug, title,
video_page_url, original_video_url, updated_at = NOW()`.
The `unique_video_slug` constraint is enforced: writing a slug already carried
by a *different* row raises a unique violation (`.error`). `newId` stands for
`gen_random_uuid()`. -/
def upsertDiscoveredVideo (t : VideoTable) (i : UpsertDiscoveredVideoInput)
    (newId : String) (now : Int) : Except String VideoTable :=
  match t.find? (fun r => identityMatches r i) with
  | some _ =>
      if t.any (fun r => r.slug == i.slug && !identityMatches r i) then
        .error "unique violation: unique_video_slug"
      else
        .ok (t.map (fun r => if identityMatches r i then applyUpsertUpdate r i now else r))
  | none =>
      if t.any (fun r => r.slug == i.slug) then
        .error "unique violation: unique_video_slug"
      else
        .ok (t ++ [freshRow i newId now])

/-- Row predicate of `findUnfinishedWorkByStateAndSource`:
`state = $1 AND source = $2 AND status NOT IN ('completed', 'permanent_failure')
AND retry_count < $5`. -/
def unfinishedPred (state source : String) (maxRetries : Nat) (r : VideoRow) : Bool :=
  decide (r.state = state ∧ r.source = source ∧
    r.status ≠ .completed ∧ r.status ≠ .permanent_failure ∧
    r.retry_count < maxRetries)

/-- `ORDER BY hearing_date ASC`. -/
def hearingLe (a b : VideoRow) : Prop := a.hearing_date ≤ b.hearing_date

instance : DecidableRel hearingLe := fun a b => by
  unfold hearingLe; infer_instance

instance : IsTotal VideoRow hearingLe := ⟨fun a b => Int.le_total a.hearing_date b.hearing_date⟩

instance : IsTrans VideoRow hearingLe := ⟨fun _ _ _ h h' => Int.le_trans h h'⟩

/-- `VideoRepository.findUnfinishedWorkByStateAndSource`:
`SELECT * FROM videos WHERE state = $1 AND source = $2 AND status NOT IN
($3, $4) AND retry_count < $5 ORDER BY hearing_date ASC LIMIT $6`.
The repository default for the retry ceiling is `maxRetries = 5`. -/
def findUnfinishedWorkByStateAndSource (t : VideoTable) (state source : String)
    (limit : Nat) (maxRetries : Nat := 5) : VideoTable :=
  (List.insertionSort hearingLe (t.filter (unfinishedPred state source maxRetries))).take limit

/-- Options bag of the conditional `updateStatus` used by `IngestService`
(`s3Key`, `lastError`, `incrementRetry`, `allowedStatuses`). -/
structure UpdateStatusOptions where
  s3Key : Option String := none
  lastError : Option String := none
  incrementRetry : Bool := false
  allowedStatuses : Option (List VideoStatus) := none
deriving Repr

/-- Modelled from the spec: the condition of the claim primitive. The
conditional `updateStatus` variant imported by `ingestService.ts` from
`db/videoRepository` is not among the repository files; only its callers and
two older unconditional variants (in `schema.sql`) are. Per spec §4.1 a claim
succeeds only if the current status is in `allowedCurrentStatuses` AND
`retryCount < retryCeiling`; when no `allowedStatuses` option is passed the
update is unconditional, as in the older variants. -/
def claimAllowed (r : VideoRow) (allowed : Option (List VideoStatus)) (maxRetries : Nat) : Bool :=
  match allowed with
  | none => true
  | some l => decide (r.status ∈ l ∧ r.retry_count < maxRetries)

/-- The `SET` clause shared by all `updateStatus` variants:
`status = $2, s3_key = COALESCE($3, s3_key), last_error = $4,
retry_count = retry_count + $5, updated_at = now()`. -/
def applyStatusUpdate (r : VideoRow) (status : VideoStatus)
    (o : UpdateStatusOptions) (now : Int) : VideoRow :=
  { r with
      status := status
      s3_key := o.s3Key.or r.s3_key
      last_error := o.lastError
      retry_count := r.retry_count + (if o.incrementRetry then 1 else 0)
      updated_at := now }

/-- Modelled from the spec: `VideoRepository.updateStatus` with the
`allowedStatuses` option — the atomic claim primitive of spec §4.1, missing
from the repository files (only its callers in `ingestService.ts` and older
unconditional variants in `schema.sql` are present). One conditional
`UPDATE ... WHERE id = $1 AND <claim condition> RETURNING *`: it applies the
update and returns the post-update row when the condition holds, and returns
no row, leaving the table unchanged, when it does not. -/
def updateStatus (t : VideoTable) (id : String) (status : VideoStatus)
    (o : UpdateStatusOptions) (maxRetries : Nat) (now : Int) :
    Option VideoRow × VideoTable :=
  ((t.find? (fun r => r.id == id && claimAllowed r o.allowedStatuses maxRetries)).map
     (fun r => applyStatusUpdate r status o now),
   t.map (fun r =>
     if r.id == id && claimAllowed r o.allowedStatuses maxRetries then
       applyStatusUpdate r status o now
     else r))

/-- `VideoRepository.resetRetryCount`:
`UPDATE videos SET retry_count = 0, updated_at = NOW() WHERE id = $1`. -/
def resetRetryCount (t : VideoTable) (id : String) (now : Int) : VideoTable :=
  t.map (fun r => if r.id == id then { r with retry_count := 0, updated_at := now } else r)

/-- Row predicate of `resetStuckVideos`: `state = $1 AND source = $2 AND status
IN ('downloading', 'transcribing') AND updated_at < NOW() - ($6 * INTERVAL '1
hour')` (timestamps in seconds, so one hour is 3600). -/
def stuckPred (state source : String) (hoursThreshold : Nat) (now : Int) (r : VideoRow) : Bool :=
  decide (r.state = state ∧ r.source = source ∧
    (r.status = .downloading ∨ r.status = .transcribing) ∧
    r.updated_at < now - hoursThreshold * 3600)

/-- `VideoRepository.resetStuckVideos`:
`UPDATE videos SET status = 'failed', last_error = 'Auto-Reset: Job stuck in
processing state', updated_at = NOW() WHERE ... RETURNING id`; returns the
number of rows reset together with the new table. -/
def resetStuckVideos (t : VideoTable) (state source : String)
    (hoursThreshold : Nat) (now : Int) : Nat × VideoTable :=
  ((t.filter (stuckPred state source hoursThreshold now)).length,
   t.map (fun r =>
     if stuckPred state source hoursThreshold now r then
       { r with
           status := .failed
           last_error := some "Auto-Reset: Job stuck in processing state"
           updated_at := now }
     else r))

/-- `VideoRepository.markAsPermanentFailure`:
`UPDATE videos SET status = $2, last_error = $3 WHERE id = $1` with
`$3 = 'Manual Review: ' || reason`. Note: this statement does not touch
`updated_at`. -/
def markAsPermanentFailure (t : VideoTable) (videoId : String) (reason : String) : VideoTable :=
  t.map (fun r =>
    if r.id == videoId then
      { r with
          status := .permanent_failure
          last_error := some ("Manual Review: " ++ reason) }
    else r)

end VideoRepository

/-! ## String helpers (JS `String.prototype.includes`, case folding) -/

/-- JS `hay.includes(needle)` on character lists: `needle` occurs as a
contiguous substring of `hay`. -/
def containsSub (needle : List Char) : List Char → Bool
  | [] => needle.isEmpty
  | c :: t => needle.isPrefixOf (c :: t) || containsSub needle t

/-- ASCII lower-casing of a character list (JS `toUpperCase`/`toLowerCase`
comparisons are modelled by folding both sides to lower case). -/
def lowerChars (l : List Char) : List Char := l.map Char.toLower

/-- Case-insensitive `includes`. -/
def containsCI (hay needle : String) : Bool :=
  containsSub (lowerChars needle.data) (lowerChars hay.data)

namespace Http

/-- A JavaScript error value as probed by `isRetryable` (`src/utils/http.ts`):
its stringified message, an optional structured `status` field and an optional
`$metadata.httpStatusCode` field. -/
structure JsError where
  message : String
  status : Option Nat := none
  metaHttpStatusCode : Option Nat := none
deriving DecidableEq, Repr

/-- Digits-to-number, the effect of `parseInt(match[1], 10)`. -/
def digitsToNat (ds : List Char) : Nat :=
  ds.foldl (fun acc c => acc * 10 + (c.toNat - 48)) 0

/-- Try to match the regex `/status (\d+)/i` at the head of the list: the
literal `status ` (case-insensitive) followed by at least one digit; on
success return the number formed by the maximal run of digits. -/
def statusMatchHere (l : List Char) : Option Nat :=
  if "status ".data.isPrefixOf (lowerChars l) then
    let ds := (l.drop 7).takeWhile Char.isDigit
    if ds.isEmpty then none else some (digitsToNat ds)
  else none

/-- Leftmost match of `/status (\d+)/i` in the message
(`message.match(/status (\d+)/i)`). -/
def scanStatus : List Char → Option Nat
  | [] => none
  | c :: t =>
    match statusMatchHere (c :: t) with
    | some n => some n
    | none => scanStatus t

/-- `const retryable4xx = [408, 425, 429, 499]`. -/
def retryable4xx : List Nat := [408, 425, 429, 499]

/-- The regex `/HTTP Error 40(0|1|3|4|10)/i` as a case-insensitive substring
test over its five alternation expansions. -/
def hasFatalPattern (message : String) : Bool :=
  ["HTTP Error 400", "HTTP Error 401", "HTTP Error 403",
   "HTTP Error 404", "HTTP Error 4010"].any (fun p => containsCI message p)

/-- `const networkErrors = [...]` of `isRetryable`. -/
def networkErrors : List String :=
  ["ECONNRESET", "ETIMEDOUT", "ENOTFOUND", "ECONNREFUSED",
   "EAI_AGAIN", "fetch failed", "socket hang up"]

/-- The status code as computed by `isRetryable`:
`probe.status ?? probe.$metadata?.httpStatusCode ?? 0`, and if that is `0`,
the first `/status (\d+)/i` match in the message (else `0`). -/
def statusCodeOf (e : JsError) : Nat :=
  let structured := e.status.getD (e.metaHttpStatusCode.getD 0)
  if structured == 0 then (scanStatus e.message.data).getD 0 else structured

/-- `isRetryable` from `src/utils/http.ts`, with the early returns of the
`if (statusCode > 0)` block encoded as an `Option Bool`. -/
def isRetryable (e : JsError) : Bool :=
  let statusCode := statusCodeOf e
  let fromCode : Option Bool :=
    if statusCode > 0 then
      if statusCode ∈ retryable4xx then some true
      else if 500 ≤ statusCode ∧ statusCode < 600 then some true
      else if 400 ≤ statusCode ∧ statusCode < 500 then some false
      else none
    else none
  match fromCode with
  | some b => b
  | none =>
    if hasFatalPattern e.message then false
    else if networkErrors.any (fun ne => containsCI e.message ne) then true
    else false

/-- Spec-side restatement of the classification (spec §4.3, steps 1–5, with
the fatal textual patterns of step 3 checked before the network substrings of
step 4), used to compare the code against the amended claim. -/
def isRetryableSpec (e : JsError) : Bool :=
  match (if statusCodeOf e = 0 then none else some (statusCodeOf e)) with
  | some c =>
    if c ∈ retryable4xx then true
    else if 500 ≤ c ∧ c < 600 then true
    else if 400 ≤ c ∧ c < 500 then false
    else
      if hasFatalPattern e.message then false
      else if networkErrors.any (fun ne => containsCI e.message ne) then true
      else false
  | none =>
    if hasFatalPattern e.message then false
    else if networkErrors.any (fun ne => containsCI e.message ne) then true
    else false

end Http

namespace Retry

/-- `RetryOptions` of `src/utils/retry.ts`; `maxAttempts` is an integer so that
zero and negative values can be passed. -/
structure RetryOptions where
  maxAttempts : Int := 5
  baseDelayMs : Nat := 500
  maxDelayMs : Nat := 10000
deriving Repr

/-- Observable outcome of `retryWithBackoff`: the final result, how many times
`fn` was invoked, the computed pre-jitter delays and the actual sleeps. -/
structure RetryOutcome (E A : Type) where
  result : Except E A
  invocations : Nat
  preJitterDelays : List Nat
  sleeps : List Nat
deriving Repr

/-- The `while (true)` loop of `retryWithBackoff`, starting at a given
`attempt`. `fn k` is the result of the k-th invocation of the operation and
`jitter k` the value of `Math.random() * 100` drawn after the k-th failure.
On failure with `attempt >= maxAttempts` the last error is rethrown; otherwise
the loop sleeps `min(baseDelayMs * 2 ** (attempt - 1), maxDelayMs) + jitter`
and retries with `attempt + 1`. -/
def retryLoop (fn : Nat → Except E A) (jitter : Nat → Nat) (o : RetryOptions)
    (attempt : Nat) : RetryOutcome E A :=
  match fn attempt with
  | .ok a => ⟨.ok a, 1, [], []⟩
  | .error e =>
    if h : (attempt : Int) ≥ o.maxAttempts then ⟨.error e, 1, [], []⟩
    else
      let delay := min (o.baseDelayMs * 2 ^ (attempt - 1)) o.maxDelayMs
      let rest := retryLoop fn jitter o (attempt + 1)
      ⟨rest.result, rest.invocations + 1,
       delay :: rest.preJitterDelays, (delay + jitter attempt) :: rest.sleeps⟩
termination_by (o.maxAttempts + 1 - attempt).toNat
decreasing_by
  simp only [not_le] at h
  omega

/-- `retryWithBackoff`: the loop entered with `attempt = 1`. -/
def retryWithBackoff (fn : Nat → Except E A) (jitter : Nat → Nat)
    (o : RetryOptions := {}) : RetryOutcome E A :=
  retryLoop fn jitter o 1

end Retry

namespace S3Client

/-- `MIN_VIDEO_SIZE = 5 * 1024 * 1024`. -/
def MIN_VIDEO_SIZE : Nat := 5 * 1024 * 1024

/-- Observable side effects of `uploadVideoFromUrl`, in order of occurrence. -/
inductive S3Event where
  | uploadStarted
  | abortUpload
  | killProcess
  | deleteObject
deriving DecidableEq, Repr

/-- Environment of one `uploadVideoFromUrl` run (`src/clients/s3Client.ts`):
whether the destination object already exists, the outcome of the pre-flight
`fetchWithRetry` HEAD probe, the outcome of `upload.done()`, and the exit code
and cumulative stdout byte count of the yt-dlp process. -/
structure TransferEnv where
  objectAlreadyExists : Bool
  preflight : Except String Unit
  uploadResult : Except String Unit
  exitCode : Int
  totalBytes : Nat
deriving Repr

/-- The post-download validation inside the `close` handler of
`processExitPromise`: exit code must be 0 and `totalBytes` must reach
`MIN_VIDEO_SIZE`, otherwise the promise rejects with the respective message. -/
def processExitValidation (exitCode : Int) (totalBytes : Nat) : Except String Unit :=
  if exitCode ≠ 0 then .error "yt-dlp failed"
  else if totalBytes < MIN_VIDEO_SIZE then
    .error "Stream finished but file too small. Likely a 403 or error page."
  else .ok ()

/-- `await Promise.all([upload.done(), processExitPromise])`: succeeds only if
both promises fulfil; otherwise it rejects with a rejection reason. -/
def joinUploadAndExit (uploadResult : Except String Unit)
    (validation : Except String Unit) : Except String Unit :=
  match uploadResult, validation with
  | .ok _, .ok _ => .ok ()
  | .error m, _ => .error m
  | _, .error m => .error m

/-- `uploadVideoFromUrl` of `src/clients/s3Client.ts`, returning the result
(public URL of the object, or the thrown error message) together with the
trace of effects. After the idempotency check and the pre-flight probe the
upload is started; on any failure of the joined await the catch block aborts
the upload, kills the process, best-effort deletes the destination object and
rethrows `[Upload Failed] <original message>`. -/
def uploadVideoFromUrl (env : TransferEnv) (key : String) :
    Except String String × List S3Event :=
  if env.objectAlreadyExists then (.ok ("https://s3/" ++ key), [])
  else
    match env.preflight with
    | .error m => (.error ("Pre-flight check failed. URL unreachable: " ++ m), [])
    | .ok _ =>
      match joinUploadAndExit env.uploadResult
          (processExitValidation env.exitCode env.totalBytes) with
      | .ok _ => (.ok ("https://s3/" ++ key), [.uploadStarted])
      | .error m =>
        (.error ("[Upload Failed] " ++ m),
         [.uploadStarted, .abortUpload, .killProcess, .deleteObject])

end S3Client

namespace S3ClientGated

open S3Client

/-- What the readiness-gate promise of the gated `uploadVideoFromUrl` variant
observes first: the first `readable` chunk, a process `error` event, a process
`close` with the given exit code before any data, or the 30s timeout. -/
inductive GateOutcome where
  | firstChunk
  | procError (msg : String)
  | closedWithCode (code : Int)
  | timeout
deriving DecidableEq, Repr

/-- The settlement of the readiness-gate promise: `readable` resolves; an
`error` event rejects with that error; `close` rejects with "Process exited
early (code c)" when `c ≠ 0` and "Process exited without sending data" when
`c = 0`; the 30s timer rejects with "Stream timeout". -/
def gateResult : GateOutcome → Except String Unit
  | .firstChunk => .ok ()
  | .procError m => .error m
  | .closedWithCode c =>
    if c ≠ 0 then .error "Process exited early" else .error "Process exited without sending data"
  | .timeout => .error "Stream timeout"

/-- Environment of one run of the gated `uploadVideoFromUrl` variant (the
repository file with the readiness gate): the idempotency check, the gate
outcome, and — when the gate passes — the upload outcome and the process exit
code and uploaded byte count. -/
structure GatedEnv where
  objectAlreadyExists : Bool
  gate : GateOutcome
  uploadResult : Except String Unit
  exitCode : Int
  totalBytes : Nat
deriving Repr

/-- The gated `uploadVideoFromUrl`: after the idempotency check it spawns the
process and awaits the readiness gate; only when the gate resolves (first
chunk arrived) is the S3 `Upload` constructed and started. A gate rejection is
rethrown before any upload exists. The remainder is as in the ungated variant:
`Promise.all` of upload and validated process exit; the catch block kills the
process, aborts the upload, best-effort deletes the object and rethrows. -/
def uploadVideoFromUrl (env : GatedEnv) (key : String) :
    Except String String × List S3Event :=
  if env.objectAlreadyExists then (.ok ("https://s3/presigned/" ++ key), [])
  else
    match gateResult env.gate with
    | .error m => (.error m, [])
    | .ok _ =>
      match joinUploadAndExit env.uploadResult
          (processExitValidation env.exitCode env.totalBytes) with
      | .ok _ => (.ok ("https://s3/presigned/" ++ key), [.uploadStarted])
      | .error m =>
        (.error ("[Upload Failed] " ++ m),
         [.uploadStarted, .killProcess, .abortUpload, .deleteObject])

end S3ClientGated

namespace IngestService

open VideoRepository

/-- `IngestService.handleFailure`: builds `fullContext` (the original message,
or `[context] message` when the message does not already contain the context),
classifies with `isRetryable`, finalizes through the conditional
`updateStatus` — to `failed` with `incrementRetry = true` when retryable, to
`permanent_failure` without incrementing otherwise, in both cases with
`lastError = fullContext` and `allowedStatuses = [pending, downloading,
downloaded, transcribing]` — and rethrows an error carrying `fullContext`.
Returns the new table and the thrown message. -/
def handleFailure (t : VideoTable) (videoId : String) (context : String)
    (e : Http.JsError) (maxRetries : Nat) (now : Int) : VideoTable × String :=
  let originalMessage := e.message
  let fullContext :=
    if containsSub context.data originalMessage.data then originalMessage
    else "[" ++ context ++ "] " ++ originalMessage
  let shouldRetry := Http.isRetryable e
  let newStatus : VideoStatus := if shouldRetry then .failed else .permanent_failure
  let updated :=
    (updateStatus t videoId newStatus
      { lastError := some fullContext
        incrementRetry := shouldRetry
        allowedStatuses := some [.pending, .downloading, .downloaded, .transcribing] }
      maxRetries now).2
  (updated, fullContext)

/-- The options literal of the claim in `IngestService.uploadStep`:
`{ allowedStatuses: [VideoStatus.PENDING, VideoStatus.FAILED] }`. -/
def uploadClaimOptions : VideoRepository.UpdateStatusOptions :=
  { allowedStatuses := some [.pending, .failed] }

end IngestService

/-! ## Concrete sample data -/

/-- A freshly discovered pending video row. -/
def sampleRow : VideoRow :=
  { id := "v1", state := "MI", source := "house", external_id := "HAGRI-111325.mp4"
    slug := "mi-house-hagri-111325", title := "Agriculture Hearing"
    hearing_date := 5, video_page_url := "https://page", original_video_url := some "https://file.mp4"
    s3_key := none, status := .pending, retry_count := 0, last_error := none
    created_at := 3, updated_at := 3 }

/-- A discovery input matching `sampleRow`'s identity tuple. -/
def sampleInputA : VideoRepository.UpsertDiscoveredVideoInput :=
  { state := "MI", source := "house", externalId := "HAGRI-111325.mp4"
    slug := "mi-house-hagri-111325", title := "Agriculture Hearing"
    hearingDate := 5, videoPageUrl := "https://page", originalVideoUrl := "https://file.mp4" }

/-- The same identity tuple as `sampleInputA` with a changed title and slug. -/
def sampleInputB : VideoRepository.UpsertDiscoveredVideoInput :=
  { sampleInputA with title := "Agriculture Hearing (rescheduled)", slug := "mi-house-hagri-111325-v2" }

/-! # Theorems -/

/-! ## Helper lemmas -/

theorem containsSub_iff (needle hay : List Char) :
    containsSub needle hay = true ↔ needle <:+: hay := by
  induction hay with
  | nil => simp [containsSub, List.isEmpty_iff, List.infix_nil]
  | cons c t ih =>
    simp only [containsSub, Bool.or_eq_true, List.isPrefixOf_iff_prefix, ih,
      List.infix_cons_iff]

namespace Retry

theorem retryLoop_ok {fn : Nat → Except E A} {jitter o attempt} {a : A}
    (h : fn attempt = .ok a) :
    retryLoop fn jitter o attempt = ⟨.ok a, 1, [], []⟩ := by
  rw [retryLoop, h]

theorem retryLoop_error_last {fn : Nat → Except E A} {jitter o attempt} {e : E}
    (h : fn attempt = .error e) (h2 : (attempt : Int) ≥ o.maxAttempts) :
    retryLoop fn jitter o attempt = ⟨.error e, 1, [], []⟩ := by
  rw [retryLoop, h]
  simp [h2]

theorem retryLoop_error_retry {fn : Nat → Except E A} {jitter o attempt} {e : E}
    (h : fn attempt = .error e) (h2 : ¬ (attempt : Int) ≥ o.maxAttempts) :
    retryLoop fn jitter o attempt =
      ⟨(retryLoop fn jitter o (attempt + 1)).result,
       (retryLoop fn jitter o (attempt + 1)).invocations + 1,
       min (o.baseDelayMs * 2 ^ (attempt - 1)) o.maxDelayMs ::
         (retryLoop fn jitter o (attempt + 1)).preJitterDelays,
       (min (o.baseDelayMs * 2 ^ (attempt - 1)) o.maxDelayMs + jitter attempt) ::
         (retryLoop fn jitter o (attempt + 1)).sleeps⟩ := by
  rw [retryLoop, h]
  simp [h2]

theorem retryLoop_invocations_le_aux (fn : Nat → Except E A) (jitter : Nat → Nat)
    (o : RetryOptions) :
    ∀ (n attempt : Nat), (o.maxAttempts + 1 - attempt).toNat = n →
      (retryLoop fn jitter o attempt).invocations ≤ max 1 n := by
  intro n
  induction n using Nat.strong_induction_on with
  | _ n ih =>
    intro attempt hn
    cases h : fn attempt with
    | ok a => rw [retryLoop_ok h]; simp
    | error e =>
      by_cases h2 : (attempt : Int) ≥ o.maxAttempts
      · rw [retryLoop_error_last h h2]; simp
      · rw [retryLoop_error_retry h h2]
        simp only [not_le] at h2
        have hlt : (o.maxAttempts + 1 - ((attempt + 1 : Nat) : Int)).toNat < n := by omega
        have := ih _ hlt (attempt + 1) rfl
        show (retryLoop fn jitter o (attempt + 1)).invocations + 1 ≤ max 1 n
        omega

theorem retryLoop_invocations_le (fn : Nat → Except E A) (jitter : Nat → Nat)
    (o : RetryOptions) (attempt : Nat) :
    (retryLoop fn jitter o attempt).invocations ≤
      max 1 (o.maxAttempts + 1 - attempt).toNat :=
  retryLoop_invocations_le_aux fn jitter o _ attempt rfl

end Retry

/-! ## Claims -/

/-- C10: `retryWithBackoff` always invokes the operation at least once: for
every `maxAttempts ≤ 1` (including 0 and negative values) the operation is
invoked exactly once, there is no backoff sleep, and the single invocation's
result — in particular its error, unchanged — is returned. -/
theorem claim_C10_retry_invokes_at_least_once (E A : Type)
    (fn : Nat → Except E A) (jitter : Nat → Nat) (m : Int) (base maxD : Nat)
    (hm : m ≤ 1) :
    Retry.retryWithBackoff fn jitter ⟨m, base, maxD⟩ = ⟨fn 1, 1, [], []⟩ := by
  unfold Retry.retryWithBackoff
  cases h : fn 1 with
  | ok a => rw [Retry.retryLoop_ok h]
  | error e =>
    rw [Retry.retryLoop_error_last h (by simpa using hm)]

/-- Witness for C10: `maxAttempts = 0` on an always-failing operation gives
exactly one invocation, no sleeps, and the error propagated unchanged. -/
theorem claim_C10_witness :
    Retry.retryWithBackoff (fun _ => (.error "boom" : Except String Nat)) (fun _ => 50)
      ⟨0, 100, 1000⟩ = ⟨.error "boom", 1, [], []⟩ :=
  claim_C10_retry_invokes_at_least_once String Nat (fun _ => .error "boom")
    (fun _ => 50) 0 100 1000 (by decide)

/-- C5: `retryWithBackoff` invokes the operation up to `maxAttempts` times
counting the first try as attempt 1; after a failed attempt with attempts
remaining it sleeps `min(baseDelayMs * 2 ^ (attempt - 1), maxDelayMs)` plus a
jitter below 100 ms; a failure of the final attempt propagates that last
error unchanged. With `maxAttempts = 3, baseDelayMs = 100, maxDelayMs = 1000`
and an operation failing twice then succeeding, the success value is returned
after exactly 2 retries (3 invocations) with pre-jitter delays 100 then
200 ms. -/
theorem claim_C5_backoff_sequence (E A : Type) (v : A) (es : Nat → E)
    (jitter : Nat → Nat) (hj : ∀ k, jitter k < 100) :
    (∀ (fn : Nat → Except E A) (o : Retry.RetryOptions),
      (Retry.retryWithBackoff fn jitter o).invocations ≤ max 1 o.maxAttempts.toNat) ∧
    Retry.retryWithBackoff (fun k => if k ≤ 2 then .error (es k) else .ok v)
        jitter ⟨3, 100, 1000⟩ =
      ⟨.ok v, 3, [100, 200], [100 + jitter 1, 200 + jitter 2]⟩ ∧
    (100 + jitter 1 < 200 ∧ 200 + jitter 2 < 300) ∧
    Retry.retryWithBackoff (fun k => (.error (es k) : Except E A)) jitter ⟨3, 100, 1000⟩ =
      ⟨.error (es 3), 3, [100, 200], [100 + jitter 1, 200 + jitter 2]⟩ := by
  refine ⟨?_, ?_, ⟨?_, ?_⟩, ?_⟩
  · intro fn o
    have := Retry.retryLoop_invocations_le fn jitter o 1
    unfold Retry.retryWithBackoff
    omega
  · unfold Retry.retryWithBackoff
    rw [Retry.retryLoop_error_retry (e := es 1) (by norm_num) (by norm_num),
        Retry.retryLoop_error_retry (e := es 2) (by norm_num) (by norm_num),
        Retry.retryLoop_ok (a := v) (by norm_num)]
    norm_num
  · have := hj 1; omega
  · have := hj 2; omega
  · unfold Retry.retryWithBackoff
    rw [Retry.retryLoop_error_retry (e := es 1) rfl (by norm_num),
        Retry.retryLoop_error_retry (e := es 2) rfl (by norm_num),
        Retry.retryLoop_error_last (e := es 3) rfl (by norm_num)]
    norm_num

/-- Witness for C5: concrete jitter 50, errors `k`, success value 7. -/
theorem claim_C5_witness :
    Retry.retryWithBackoff (fun k => if k ≤ 2 then .error k else .ok 7)
      (fun _ => 50) ⟨3, 100, 1000⟩ =
      ⟨.ok (7 : Nat), (3 : Nat), [100, 200], [(150 : Nat), 250]⟩ := by
  have h := (claim_C5_backoff_sequence Nat Nat 7 (fun k => k) (fun _ => 50)
    (by intro k; norm_num)).2.1
  simpa using h

/-- C6: a transfer whose fetch process exits with code 0 but whose cumulative
byte count is below the 5 MB floor fails: `uploadVideoFromUrl` throws a
wrapped `[Upload Failed]` error instead of returning a locator and
best-effort deletes any partial object at the destination key; and — the
joined await of upload completion and exit validation — the transfer
succeeds only if both the upload and the exit-code/size validation
succeed. -/
theorem claim_C6_small_file_rejection (up : Except String Unit) (c : Int)
    (b : Nat) (key : String) :
    ((∃ url, (S3Client.uploadVideoFromUrl ⟨false, .ok (), up, c, b⟩ key).1 = .ok url) ↔
      (up = .ok () ∧ c = 0 ∧ S3Client.MIN_VIDEO_SIZE ≤ b)) ∧
    (c = 0 → b < S3Client.MIN_VIDEO_SIZE →
      (∃ m, (S3Client.uploadVideoFromUrl ⟨false, .ok (), up, c, b⟩ key).1 =
        .error ("[Upload Failed] " ++ m)) ∧
      S3Client.S3Event.deleteObject ∈
        (S3Client.uploadVideoFromUrl ⟨false, .ok (), up, c, b⟩ key).2) := by
  have hrun : S3Client.uploadVideoFromUrl ⟨false, .ok (), up, c, b⟩ key =
      match S3Client.joinUploadAndExit up (S3Client.processExitValidation c b) with
      | .ok _ => (.ok ("https://s3/" ++ key), [.uploadStarted])
      | .error m =>
        (.error ("[Upload Failed] " ++ m),
         [.uploadStarted, .abortUpload, .killProcess, .deleteObject]) := rfl
  constructor
  · constructor
    · rintro ⟨url, hurl⟩
      rw [hrun] at hurl
      cases up with
      | error m => simp [S3Client.joinUploadAndExit] at hurl
      | ok u =>
        cases u
        by_cases h0 : c = 0
        · by_cases hsz : b < S3Client.MIN_VIDEO_SIZE
          · simp [S3Client.joinUploadAndExit, S3Client.processExitValidation,
              h0, hsz] at hurl
          · exact ⟨rfl, h0, Nat.not_lt.mp hsz⟩
        · simp [S3Client.joinUploadAndExit, S3Client.processExitValidation,
            h0] at hurl
    · rintro ⟨hup, h0, hsz⟩
      subst hup h0
      refine ⟨"https://s3/" ++ key, ?_⟩
      rw [hrun]
      have hv : S3Client.processExitValidation 0 b = .ok () := by
        unfold S3Client.processExitValidation
        simp [Nat.not_lt.mpr hsz]
      rw [hv]
      rfl
  · intro h0 hsz
    subst h0
    have hv : S3Client.processExitValidation 0 b =
        .error "Stream finished but file too small. Likely a 403 or error page." := by
      unfold S3Client.processExitValidation
      simp [hsz]
    cases up with
    | error m =>
      rw [hrun, hv]
      exact ⟨⟨m, rfl⟩, by simp [S3Client.joinUploadAndExit]⟩
    | ok u =>
      cases u
      rw [hrun, hv]
      exact ⟨⟨"Stream finished but file too small. Likely a 403 or error page.", rfl⟩,
        by simp [S3Client.joinUploadAndExit]⟩

/-- Witness for C6: fetch process exits 0 with 2 MB transferred (below the
5 MB floor): the result is a wrapped error with the partial object deleted. -/
theorem claim_C6_witness :
    (∃ m, (S3Client.uploadVideoFromUrl ⟨false, .ok (), .ok (), 0, 2 * 1024 * 1024⟩ "k").1 =
      .error ("[Upload Failed] " ++ m)) ∧
    S3Client.S3Event.deleteObject ∈
      (S3Client.uploadVideoFromUrl ⟨false, .ok (), .ok (), 0, 2 * 1024 * 1024⟩ "k").2 :=
  (claim_C6_small_file_rejection (.ok ()) 0 (2 * 1024 * 1024) "k").2 rfl
    (by norm_num [S3Client.MIN_VIDEO_SIZE])

/-- C7: in the gated transfer, the destination upload is started only after
the fetch process has produced its first chunk: `uploadStarted` appears in
the trace only when the readiness gate resolved with the first chunk; a
process that exits with no data (close with code 0 before any chunk) or a
gate timeout fails the transfer with an empty effect trace — no upload is
ever started, so no empty destination object is created. -/
theorem claim_C7_readiness_gate (env : S3ClientGated.GatedEnv) (key : String) :
    (S3Client.S3Event.uploadStarted ∈ (S3ClientGated.uploadVideoFromUrl env key).2 →
      env.gate = .firstChunk) ∧
    (env.objectAlreadyExists = false → env.gate = .closedWithCode 0 →
      (S3ClientGated.uploadVideoFromUrl env key).1 =
        .error "Process exited without sending data" ∧
      (S3ClientGated.uploadVideoFromUrl env key).2 = []) ∧
    (env.objectAlreadyExists = false → env.gate = .timeout →
      (S3ClientGated.uploadVideoFromUrl env key).1 = .error "Stream timeout" ∧
      (S3ClientGated.uploadVideoFromUrl env key).2 = []) := by
  refine ⟨?_, ?_, ?_⟩
  · intro hmem
    unfold S3ClientGated.uploadVideoFromUrl at hmem
    cases hex : env.objectAlreadyExists with
    | true => simp [hex] at hmem
    | false =>
      cases hg : env.gate with
      | firstChunk => rfl
      | procError m => simp [hex, hg, S3ClientGated.gateResult] at hmem
      | closedWithCode c =>
        by_cases hc : c = 0 <;>
          simp [hex, hg, hc, S3ClientGated.gateResult] at hmem
      | timeout => simp [hex, hg, S3ClientGated.gateResult] at hmem
  · intro hex hg
    unfold S3ClientGated.uploadVideoFromUrl
    simp [hex, hg, S3ClientGated.gateResult]
  · intro hex hg
    unfold S3ClientGated.uploadVideoFromUrl
    simp [hex, hg, S3ClientGated.gateResult]

/-- Witness for C7: a process that closes with exit code 0 before producing
any data fails the transfer with an empty effect trace. -/
theorem claim_C7_witness :
    (S3ClientGated.uploadVideoFromUrl ⟨false, .closedWithCode 0, .ok (), 0, 99999999⟩ "k").1 =
      .error "Process exited without sending data" ∧
    (S3ClientGated.uploadVideoFromUrl ⟨false, .closedWithCode 0, .ok (), 0, 99999999⟩ "k").2 = [] :=
  (claim_C7_readiness_gate ⟨false, .closedWithCode 0, .ok (), 0, 99999999⟩ "k").2.1 rfl rfl

/-- Counterexample to C4 as stated: an error whose message contains the
network-failure substring `ECONNRESET` (and carries no status code) is
nevertheless classified NOT retryable, because the fetch utility's fatal
pattern `HTTP Error 404` is matched first. -/
theorem claim_C4_counterexample :
    containsCI "ECONNRESET: HTTP Error 404" "ECONNRESET" = true ∧
    Http.statusCodeOf ⟨"ECONNRESET: HTTP Error 404", none, none⟩ = 0 ∧
    Http.isRetryable ⟨"ECONNRESET: HTTP Error 404", none, none⟩ = false := by
  refine ⟨by decide, by decide, by decide⟩

/-- C4 (amended): `isRetryable` agrees everywhere with the spec §4.3
classification — status code from structured fields or the `status (\d+)`
pattern; found codes: {408, 425, 429, 499} and all 5xx retryable, any other
4xx fatal; otherwise the fetch utility's fatal `HTTP Error 40x` patterns are
fatal and are checked BEFORE the transient network substrings, which are
retryable; everything else defaults to not retryable. In particular
`isRetryable({status:429}) = true`, `isRetryable({status:404}) = false`,
`isRetryable({status:503}) = true`, `isRetryable(Error("ECONNRESET")) = true`
and `isRetryable(Error("boom")) = false`. -/
theorem claim_C4_isRetryable_classification :
    (∀ e, Http.isRetryable e = Http.isRetryableSpec e) ∧
    Http.isRetryable ⟨"[object Object]", some 429, none⟩ = true ∧
    Http.isRetryable ⟨"[object Object]", some 404, none⟩ = false ∧
    Http.isRetryable ⟨"[object Object]", some 503, none⟩ = true ∧
    Http.isRetryable ⟨"ECONNRESET", none, none⟩ = true ∧
    Http.isRetryable ⟨"boom", none, none⟩ = false := by
  refine ⟨?_, by decide, by decide, by decide, by decide, by decide⟩
  intro e
  unfold Http.isRetryable Http.isRetryableSpec
  by_cases h : Http.statusCodeOf e = 0
  · simp [h]
  · have hpos : 0 < Http.statusCodeOf e := Nat.pos_of_ne_zero h
    by_cases h1 : Http.statusCodeOf e ∈ Http.retryable4xx <;>
      by_cases h2 : 500 ≤ Http.statusCodeOf e ∧ Http.statusCodeOf e < 600 <;>
      by_cases h3 : 400 ≤ Http.statusCodeOf e ∧ Http.statusCodeOf e < 500 <;>
      simp [h, hpos, h1, h2, h3]

/-- Witness for C4: a concrete agreement point of the code classifier and the
spec classifier. -/
theorem claim_C4_witness :
    Http.isRetryable ⟨"fetch failed", none, none⟩ =
      Http.isRetryableSpec ⟨"fetch failed", none, none⟩ :=
  claim_C4_isRetryable_classification.1 ⟨"fetch failed", none, none⟩

namespace VideoRepository

theorem ids_ne_of_wf_split {l1 l2 : VideoTable} {r : VideoRow}
    (hwf : wfTable (l1 ++ r :: l2)) :
    (∀ x ∈ l1, x.id ≠ r.id) ∧ (∀ x ∈ l2, r.id ≠ x.id) := by
  unfold wfTable at hwf
  rw [List.pairwise_append] at hwf
  obtain ⟨_, h2, h12⟩ := hwf
  refine ⟨fun x hx => h12 x hx r (List.mem_cons_self r l2), ?_⟩
  rw [List.pairwise_cons] at h2
  exact h2.1

theorem find?_id_split {l1 l2 : VideoTable} {r : VideoRow} {id : String}
    (P : VideoRow → Bool)
    (hl1 : ∀ x ∈ l1, x.id ≠ id) (hid : r.id = id) (hP : P r = true) :
    (l1 ++ r :: l2).find? (fun x => x.id == id && P x) = some r := by
  rw [List.find?_append]
  have h1 : l1.find? (fun x => x.id == id && P x) = none := by
    rw [List.find?_eq_none]
    intro x hx
    simp [hl1 x hx]
  rw [h1, Option.none_or, List.find?_cons]
  simp [hid, hP]

theorem map_update_split {l1 l2 : VideoTable} {r : VideoRow} {id : String}
    (P : VideoRow → Bool) (f : VideoRow → VideoRow)
    (hl1 : ∀ x ∈ l1, x.id ≠ id) (hl2 : ∀ x ∈ l2, x.id ≠ id)
    (hid : r.id = id) (hP : P r = true) :
    (l1 ++ r :: l2).map (fun x => if x.id == id && P x then f x else x) =
      l1 ++ f r :: l2 := by
  rw [List.map_append, List.map_cons]
  have e1 : l1.map (fun x => if x.id == id && P x then f x else x) = l1 := by
    conv_rhs => rw [← List.map_id l1]
    apply List.map_congr_left
    intro x hx
    simp [hl1 x hx]
  have e3 : l2.map (fun x => if x.id == id && P x then f x else x) = l2 := by
    conv_rhs => rw [← List.map_id l2]
    apply List.map_congr_left
    intro x hx
    simp [hl2 x hx]
  rw [e1, e3]
  simp [hid, hP]

theorem updateStatus_noMatch (t : VideoTable) (id : String) (st : VideoStatus)
    (o : UpdateStatusOptions) (m : Nat) (now : Int)
    (h : ∀ x ∈ t, x.id = id → claimAllowed x o.allowedStatuses m = false) :
    updateStatus t id st o m now = (none, t) := by
  unfold updateStatus
  have h1 : t.find? (fun x => x.id == id && claimAllowed x o.allowedStatuses m) = none := by
    rw [List.find?_eq_none]
    intro x hx
    by_cases hxid : x.id = id
    · simp [hxid, h x hx hxid]
    · simp [hxid]
  have h2 : t.map (fun x =>
      if x.id == id && claimAllowed x o.allowedStatuses m then
        applyStatusUpdate x st o now else x) = t := by
    conv_rhs => rw [← List.map_id t]
    apply List.map_congr_left
    intro x hx
    by_cases hxid : x.id = id
    · simp [hxid, h x hx hxid]
    · simp [hxid]
  rw [h1, h2]
  rfl

theorem updateStatus_split (l1 l2 : VideoTable) (r : VideoRow)
    (st : VideoStatus) (o : UpdateStatusOptions) (m : Nat) (now : Int)
    (hwf : wfTable (l1 ++ r :: l2))
    (hcond : claimAllowed r o.allowedStatuses m = true) :
    updateStatus (l1 ++ r :: l2) r.id st o m now =
      (some (applyStatusUpdate r st o now),
       l1 ++ applyStatusUpdate r st o now :: l2) := by
  obtain ⟨h1, h2⟩ := ids_ne_of_wf_split hwf
  unfold updateStatus
  rw [find?_id_split _ h1 rfl hcond,
      map_update_split _ _ h1 (fun x hx => (h2 x hx).symm) rfl hcond]
  rfl

end VideoRepository

/-- C1: the claim primitive — the conditional `updateStatus` with an
`allowedStatuses` option, as invoked by `IngestService.uploadStep` — changes
the item's status to the target status only if its current status is in the
allowed set AND its `retry_count` is below the retry ceiling, applying the
update and returning the post-update row in one atomic operation; when the
condition fails no row is returned and the table is unchanged. Consequently,
of two claims into `downloading` from `{pending, failed}` on a pending item
(serialized by the store's atomicity), exactly one returns a row and the item
enters `downloading` exactly once. -/
theorem claim_C1_updateStatus_atomic_claim :
    (∀ (l1 l2 : VideoTable) (r : VideoRow) (st : VideoStatus)
        (o : VideoRepository.UpdateStatusOptions) (m : Nat) (now : Int),
      wfTable (l1 ++ r :: l2) →
      VideoRepository.claimAllowed r o.allowedStatuses m = true →
      VideoRepository.updateStatus (l1 ++ r :: l2) r.id st o m now =
        (some (VideoRepository.applyStatusUpdate r st o now),
         l1 ++ VideoRepository.applyStatusUpdate r st o now :: l2)) ∧
    (∀ (t : VideoTable) (id : String) (st : VideoStatus)
        (o : VideoRepository.UpdateStatusOptions) (m : Nat) (now : Int),
      (∀ x ∈ t, x.id = id →
        VideoRepository.claimAllowed x o.allowedStatuses m = false) →
      VideoRepository.updateStatus t id st o m now = (none, t)) ∧
    (∀ (l1 l2 : VideoTable) (r : VideoRow) (now₁ now₂ : Int),
      wfTable (l1 ++ r :: l2) → r.status = .pending → r.retry_count < 5 →
      (VideoRepository.updateStatus (l1 ++ r :: l2) r.id .downloading
          IngestService.uploadClaimOptions 5 now₁).1.map (fun x => x.status) =
        some .downloading ∧
      (VideoRepository.updateStatus
          (VideoRepository.updateStatus (l1 ++ r :: l2) r.id .downloading
            IngestService.uploadClaimOptions 5 now₁).2
          r.id .downloading IngestService.uploadClaimOptions 5 now₂).1 = none ∧
      (VideoRepository.updateStatus
          (VideoRepository.updateStatus (l1 ++ r :: l2) r.id .downloading
            IngestService.uploadClaimOptions 5 now₁).2
          r.id .downloading IngestService.uploadClaimOptions 5 now₂).2 =
        (VideoRepository.updateStatus (l1 ++ r :: l2) r.id .downloading
          IngestService.uploadClaimOptions 5 now₁).2 ∧
      (VideoRepository.updateStatus (l1 ++ r :: l2) r.id .downloading
          IngestService.uploadClaimOptions 5 now₁).2.countP
        (fun x => x.id == r.id && x.status == VideoStatus.downloading) = 1) := by
  refine ⟨VideoRepository.updateStatus_split, VideoRepository.updateStatus_noMatch, ?_⟩
  intro l1 l2 r now₁ now₂ hwf hst hrc
  obtain ⟨h1, h2⟩ := VideoRepository.ids_ne_of_wf_split hwf
  have hcond : VideoRepository.claimAllowed r
      IngestService.uploadClaimOptions.allowedStatuses 5 = true := by
    simp [VideoRepository.claimAllowed, IngestService.uploadClaimOptions, hst, hrc]
  have hsplit := VideoRepository.updateStatus_split l1 l2 r .downloading
    IngestService.uploadClaimOptions 5 now₁ hwf hcond
  rw [hsplit]
  have hnm : ∀ x ∈ l1 ++ VideoRepository.applyStatusUpdate r .downloading
      IngestService.uploadClaimOptions now₁ :: l2, x.id = r.id →
      VideoRepository.claimAllowed x
        IngestService.uploadClaimOptions.allowedStatuses 5 = false := by
    intro x hx hxid
    rcases List.mem_append.mp hx with hx1 | hx2
    · exact absurd hxid (h1 x hx1)
    · rcases List.mem_cons.mp hx2 with rfl | hx3
      · simp [VideoRepository.claimAllowed, VideoRepository.applyStatusUpdate,
          IngestService.uploadClaimOptions]
      · exact absurd hxid.symm (h2 x hx3)
  refine ⟨rfl, ?_, ?_, ?_⟩
  · rw [VideoRepository.updateStatus_noMatch _ _ _ _ _ _ hnm]
  · rw [VideoRepository.updateStatus_noMatch _ _ _ _ _ _ hnm]
  · rw [List.countP_append, List.countP_cons]
    have c1 : l1.countP (fun x => x.id == r.id && x.status == VideoStatus.downloading) = 0 := by
      rw [List.countP_eq_zero]
      intro x hx
      simp [h1 x hx]
    have c2 : l2.countP (fun x => x.id == r.id && x.status == VideoStatus.downloading) = 0 := by
      rw [List.countP_eq_zero]
      intro x hx
      have hne : x.id ≠ r.id := fun hh => (h2 x hx) hh.symm
      simp [hne]
    rw [c1, c2]
    simp [VideoRepository.applyStatusUpdate]

/-- Witness for C1: a single pending row is claimed into `downloading`; a
second identical claim returns no row. -/
theorem claim_C1_witness :
    (VideoRepository.updateStatus [sampleRow] "v1" .downloading
        IngestService.uploadClaimOptions 5 10).1.map (fun x => x.status) =
      some .downloading ∧
    (VideoRepository.updateStatus
        (VideoRepository.updateStatus [sampleRow] "v1" .downloading
          IngestService.uploadClaimOptions 5 10).2
        "v1" .downloading IngestService.uploadClaimOptions 5 11).1 = none := by
  have h := claim_C1_updateStatus_atomic_claim.2.2 [] [] sampleRow 10 11
    (by simp [wfTable]) (by decide) (by decide)
  exact ⟨h.1, h.2.1⟩

/-- C2: `findUnfinishedWorkByStateAndSource` returns exactly the rows of the
given state and source whose status is not in
`{completed, permanent_failure}` and whose `retry_count` is strictly below
the retry ceiling, ordered by hearing date ascending, capped at the given
limit: every returned row is such a row of the table, the result length is
the match count capped at the limit, the result is sorted by hearing date,
and when the limit is not exceeded every matching row is returned. -/
theorem claim_C2_findUnfinished_work_queue (t : VideoTable)
    (state source : String) (limit m : Nat) :
    (∀ r ∈ VideoRepository.findUnfinishedWorkByStateAndSource t state source limit m,
      r ∈ t ∧ VideoRepository.unfinishedPred state source m r = true) ∧
    (VideoRepository.findUnfinishedWorkByStateAndSource t state source limit m).length =
      min limit (t.filter (VideoRepository.unfinishedPred state source m)).length ∧
    (VideoRepository.findUnfinishedWorkByStateAndSource t state source limit m).Pairwise
      VideoRepository.hearingLe ∧
    ((t.filter (VideoRepository.unfinishedPred state source m)).length ≤ limit →
      ∀ r ∈ t, VideoRepository.unfinishedPred state source m r = true →
        r ∈ VideoRepository.findUnfinishedWorkByStateAndSource t state source limit m) := by
  refine ⟨?_, ?_, ?_, ?_⟩
  · intro r hr
    have h1 : r ∈ List.insertionSort VideoRepository.hearingLe
        (t.filter (VideoRepository.unfinishedPred state source m)) :=
      List.mem_of_mem_take hr
    rw [List.mem_insertionSort] at h1
    exact ⟨(List.mem_filter.mp h1).1, (List.mem_filter.mp h1).2⟩
  · unfold VideoRepository.findUnfinishedWorkByStateAndSource
    rw [List.length_take, List.length_insertionSort]
  · exact List.Pairwise.sublist (List.take_sublist _ _)
      (List.sorted_insertionSort VideoRepository.hearingLe _)
  · intro hlen r hr hp
    unfold VideoRepository.findUnfinishedWorkByStateAndSource
    rw [List.take_of_length_le (by rw [List.length_insertionSort]; exact hlen),
        List.mem_insertionSort]
    exact List.mem_filter.mpr ⟨hr, hp⟩

/-- Witness for C2: for a one-row table of a pending item the work queue
returns that row. -/
theorem claim_C2_witness :
    sampleRow ∈ VideoRepository.findUnfinishedWorkByStateAndSource
      [sampleRow] "MI" "house" 5 5 :=
  (claim_C2_findUnfinished_work_queue [sampleRow] "MI" "house" 5 5).2.2.2
    (by decide) sampleRow (by simp) (by decide)

/-- C3: `upsertDiscoveredVideo` is idempotent on the identity tuple
`(state, source, external_id)`: a first call on a table without the identity
inserts exactly one row — with status `pending` and `retry_count` 0 — and a
second call with the same identity (even with changed title, slug or URLs)
creates no second row: it updates only the descriptive fields (slug, title,
`video_page_url`, `original_video_url`) of that row and leaves `status`,
`retry_count`, `s3_key` and `last_error` (and the hearing date) unchanged. -/
theorem claim_C3_upsert_idempotent (t : VideoTable)
    (i i' : VideoRepository.UpsertDiscoveredVideoInput)
    (id1 id2 : String) (now1 now2 : Int)
    (hs : i'.state = i.state) (hso : i'.source = i.source)
    (he : i'.externalId = i.externalId)
    (hident : ∀ r ∈ t, VideoRepository.identityMatches r i = false)
    (hslug1 : ∀ r ∈ t, r.slug ≠ i.slug)
    (hslug2 : ∀ r ∈ t, r.slug ≠ i'.slug) :
    VideoRepository.upsertDiscoveredVideo t i id1 now1 =
      .ok (t ++ [VideoRepository.freshRow i id1 now1]) ∧
    VideoRepository.upsertDiscoveredVideo
        (t ++ [VideoRepository.freshRow i id1 now1]) i' id2 now2 =
      .ok (t ++ [VideoRepository.applyUpsertUpdate
        (VideoRepository.freshRow i id1 now1) i' now2]) ∧
    (t ++ [VideoRepository.applyUpsertUpdate
        (VideoRepository.freshRow i id1 now1) i' now2]).length =
      (t ++ [VideoRepository.freshRow i id1 now1]).length ∧
    (VideoRepository.applyUpsertUpdate
        (VideoRepository.freshRow i id1 now1) i' now2) =
      { VideoRepository.freshRow i id1 now1 with
          slug := i'.slug
          title := i'.title
          video_page_url := i'.videoPageUrl
          original_video_url := some i'.originalVideoUrl
          updated_at := now2 } ∧
    (VideoRepository.freshRow i id1 now1).status = .pending ∧
    (VideoRepository.freshRow i id1 now1).retry_count = 0 ∧
    (VideoRepository.freshRow i id1 now1).s3_key = none ∧
    (VideoRepository.freshRow i id1 now1).last_error = none := by
  have hiden' : ∀ x, VideoRepository.identityMatches x i' =
      VideoRepository.identityMatches x i := by
    intro x
    unfold VideoRepository.identityMatches
    rw [hs, hso, he]
  have hfreshiden : VideoRepository.identityMatches
      (VideoRepository.freshRow i id1 now1) i = true := by
    simp [VideoRepository.identityMatches, VideoRepository.freshRow]
  refine ⟨?_, ?_, by simp, by rfl, rfl, rfl, rfl, rfl⟩
  · unfold VideoRepository.upsertDiscoveredVideo
    have hf : t.find? (fun r => VideoRepository.identityMatches r i) = none := by
      rw [List.find?_eq_none]
      intro x hx
      simp [hident x hx]
    rw [hf]
    have hany : t.any (fun r => r.slug == i.slug) = false := by
      rw [List.any_eq_false]
      intro x hx
      simp [hslug1 x hx]
    rw [hany]
    rfl
  · unfold VideoRepository.upsertDiscoveredVideo
    have hf : (t ++ [VideoRepository.freshRow i id1 now1]).find?
        (fun r => VideoRepository.identityMatches r i') =
        some (VideoRepository.freshRow i id1 now1) := by
      rw [List.find?_append]
      have hfn : t.find? (fun r => VideoRepository.identityMatches r i') = none := by
        rw [List.find?_eq_none]
        intro x hx
        simp [hiden' x, hident x hx]
      rw [hfn, Option.none_or]
      simp [List.find?_cons, hiden', hfreshiden]
    rw [hf]
    have hany : (t ++ [VideoRepository.freshRow i id1 now1]).any
        (fun r => r.slug == i'.slug && !VideoRepository.identityMatches r i') = false := by
      rw [List.any_eq_false]
      intro x hx
      rcases List.mem_append.mp hx with hx1 | hx2
      · simp [hslug2 x hx1]
      · rcases List.mem_cons.mp hx2 with rfl | hx3
        · simp [hiden', hfreshiden]
        · simp at hx3
    rw [hany]
    have hmap : (t ++ [VideoRepository.freshRow i id1 now1]).map
        (fun r => if VideoRepository.identityMatches r i' then
          VideoRepository.applyUpsertUpdate r i' now2 else r) =
        t ++ [VideoRepository.applyUpsertUpdate
          (VideoRepository.freshRow i id1 now1) i' now2] := by
      rw [List.map_append]
      have e1 : t.map (fun r => if VideoRepository.identityMatches r i' then
          VideoRepository.applyUpsertUpdate r i' now2 else r) = t := by
        conv_rhs => rw [← List.map_id t]
        apply List.map_congr_left
        intro x hx
        simp [hiden' x, hident x hx]
      rw [e1]
      simp [hiden', hfreshiden]
    rw [hmap]
    simp

/-- Witness for C3: discovery of a fresh item, then re-discovery with a
changed title and slug. -/
theorem claim_C3_witness :
    VideoRepository.upsertDiscoveredVideo [] sampleInputA "v1" 3 =
      .ok [VideoRepository.freshRow sampleInputA "v1" 3] ∧
    VideoRepository.upsertDiscoveredVideo
        [VideoRepository.freshRow sampleInputA "v1" 3] sampleInputB "v2" 9 =
      .ok [VideoRepository.applyUpsertUpdate
        (VideoRepository.freshRow sampleInputA "v1" 3) sampleInputB 9] := by
  have h := claim_C3_upsert_idempotent [] sampleInputA sampleInputB "v1" "v2" 3 9
    (by decide) (by decide) (by decide) (by simp) (by simp) (by simp)
  exact ⟨h.1, h.2.1⟩

/-- C8: `IngestService.handleFailure` routes a caught per-item error by
`isRetryable`: a retryable error finalizes the item to `failed` with the
retry count incremented by exactly 1, a non-retryable error finalizes it to
`permanent_failure` without incrementing; in both cases `last_error` is set
to the thrown message, which wraps the stage context and the original error
message, and that message is re-raised. (Stated for an item in one of the
active statuses allowed by the finalize call, below the retry ceiling.) -/
theorem claim_C8_handleFailure_routing (l1 l2 : VideoTable) (r : VideoRow)
    (ctx : String) (e : Http.JsError) (m : Nat) (now : Int)
    (hwf : wfTable (l1 ++ r :: l2))
    (hst : r.status = .pending ∨ r.status = .downloading ∨
      r.status = .downloaded ∨ r.status = .transcribing)
    (hrc : r.retry_count < m) :
    (Http.isRetryable e = true →
      (IngestService.handleFailure (l1 ++ r :: l2) r.id ctx e m now).1 =
        l1 ++ { r with
            status := .failed
            retry_count := r.retry_count + 1
            last_error := some (IngestService.handleFailure (l1 ++ r :: l2) r.id ctx e m now).2
            updated_at := now } :: l2) ∧
    (Http.isRetryable e = false →
      (IngestService.handleFailure (l1 ++ r :: l2) r.id ctx e m now).1 =
        l1 ++ { r with
            status := .permanent_failure
            last_error := some (IngestService.handleFailure (l1 ++ r :: l2) r.id ctx e m now).2
            updated_at := now } :: l2) ∧
    ctx.data <:+: (IngestService.handleFailure (l1 ++ r :: l2) r.id ctx e m now).2.data ∧
    e.message.data <:+: (IngestService.handleFailure (l1 ++ r :: l2) r.id ctx e m now).2.data := by
  have hcond : VideoRepository.claimAllowed r
      (some [.pending, .downloading, .downloaded, .transcribing]) m = true := by
    rcases hst with h | h | h | h <;> simp [VideoRepository.claimAllowed, h, hrc]
  refine ⟨?_, ?_, ?_, ?_⟩
  · intro hret
    simp only [IngestService.handleFailure, hret]
    rw [VideoRepository.updateStatus_split l1 l2 r _ _ m now hwf hcond]
    simp [VideoRepository.applyStatusUpdate]
  · intro hret
    simp only [IngestService.handleFailure, hret]
    rw [VideoRepository.updateStatus_split l1 l2 r _ _ m now hwf hcond]
    simp [VideoRepository.applyStatusUpdate]
  · simp only [IngestService.handleFailure]
    by_cases hc : containsSub ctx.data e.message.data = true
    · simpa [hc] using (containsSub_iff ctx.data e.message.data).mp hc
    · simp only [hc]
      refine ⟨"[".data, ("] " ++ e.message).data, ?_⟩
      simp [String.data_append, List.append_assoc]
  · simp only [IngestService.handleFailure]
    by_cases hc : containsSub ctx.data e.message.data = true
    · simp [hc, List.infix_refl]
    · simp only [hc]
      refine ⟨("[" ++ ctx ++ "] ").data, [], ?_⟩
      simp [String.data_append, List.append_assoc]

/-- Witness for C8: a retryable `ECONNRESET` failure of the upload stage on a
`downloading` row increments the retry count and moves the row to `failed`. -/
theorem claim_C8_witness :
    (IngestService.handleFailure [{ sampleRow with status := .downloading }]
        "v1" "Upload failed" ⟨"ECONNRESET", none, none⟩ 5 20).1 =
      [{ sampleRow with
          status := .failed
          retry_count := 1
          last_error := some (IngestService.handleFailure
            [{ sampleRow with status := .downloading }]
            "v1" "Upload failed" ⟨"ECONNRESET", none, none⟩ 5 20).2
          updated_at := 20 }] := by
  have h := (claim_C8_handleFailure_routing [] [] { sampleRow with status := .downloading }
    "Upload failed" ⟨"ECONNRESET", none, none⟩ 5 20
    (by simp [wfTable]) (Or.inr (Or.inl rfl)) (by decide)).1 (by decide)
  exact h

/-- Counterexample to C9 as stated: `markAsPermanentFailure` mutates the row
(status and `last_error` change) but takes no current time at all and leaves
`updated_at` at its old value. -/
theorem claim_C9_counterexample :
    VideoRepository.markAsPermanentFailure [sampleRow] "v1" "unrecoverable" =
      [{ sampleRow with
          status := .permanent_failure
          last_error := some "Manual Review: unrecoverable" }] ∧
    (VideoRepository.markAsPermanentFailure [sampleRow] "v1" "unrecoverable").map
      (fun r => r.updated_at) = [3] ∧
    sampleRow.updated_at = 3 ∧
    sampleRow.status ≠ VideoStatus.permanent_failure := by
  refine ⟨by decide, by decide, by decide, by decide⟩

/-- C9 (amended): `upsertDiscoveredVideo` (both on insert and on conflict),
the conditional `updateStatus`, `resetRetryCount` and `resetStuckVideos`
stamp `updated_at = now()` on every row they mutate (every row of the result
is either an untouched row of the old table or carries the new timestamp);
`markAsPermanentFailure`, however, leaves `updated_at` unchanged on every
row. -/
theorem claim_C9_updated_at_stamping :
    (∀ (t : VideoTable) (i : VideoRepository.UpsertDiscoveredVideoInput)
        (nid : String) (now : Int) (tbl : VideoTable),
      VideoRepository.upsertDiscoveredVideo t i nid now = .ok tbl →
      ∀ x ∈ tbl, x ∈ t ∨ x.updated_at = now) ∧
    (∀ (t : VideoTable) (id : String) (st : VideoStatus)
        (o : VideoRepository.UpdateStatusOptions) (m : Nat) (now : Int),
      ∀ x ∈ (VideoRepository.updateStatus t id st o m now).2,
        x ∈ t ∨ x.updated_at = now) ∧
    (∀ (t : VideoTable) (id : String) (now : Int),
      ∀ x ∈ VideoRepository.resetRetryCount t id now, x ∈ t ∨ x.updated_at = now) ∧
    (∀ (t : VideoTable) (state source : String) (th : Nat) (now : Int),
      ∀ x ∈ (VideoRepository.resetStuckVideos t state source th now).2,
        x ∈ t ∨ x.updated_at = now) ∧
    (∀ (t : VideoTable) (id reason : String),
      (VideoRepository.markAsPermanentFailure t id reason).map (fun r => r.updated_at) =
        t.map (fun r => r.updated_at)) := by
  refine ⟨?_, ?_, ?_, ?_, ?_⟩
  · intro t i nid now tbl hok x hx
    unfold VideoRepository.upsertDiscoveredVideo at hok
    split at hok
    · split at hok
      · cases hok
      · rw [Except.ok.injEq] at hok
        subst hok
        rw [List.mem_map] at hx
        obtain ⟨y', hy', rfl⟩ := hx
        by_cases hm : VideoRepository.identityMatches y' i = true
        · exact Or.inr (by simp [hm, VideoRepository.applyUpsertUpdate])
        · exact Or.inl (by simpa [hm] using hy')
    · split at hok
      · cases hok
      · rw [Except.ok.injEq] at hok
        subst hok
        rcases List.mem_append.mp hx with hx1 | hx2
        · exact Or.inl hx1
        · rcases List.mem_cons.mp hx2 with rfl | hx3
          · exact Or.inr rfl
          · simp at hx3
  · intro t id st o m now x hx
    unfold VideoRepository.updateStatus at hx
    rw [List.mem_map] at hx
    obtain ⟨y, hy, rfl⟩ := hx
    by_cases hc : (y.id == id && VideoRepository.claimAllowed y o.allowedStatuses m) = true
    · exact Or.inr (by simp [hc, VideoRepository.applyStatusUpdate])
    · exact Or.inl (by simpa [hc] using hy)
  · intro t id now x hx
    unfold VideoRepository.resetRetryCount at hx
    rw [List.mem_map] at hx
    obtain ⟨y, hy, rfl⟩ := hx
    by_cases hc : (y.id == id) = true
    · exact Or.inr (by simp [hc])
    · exact Or.inl (by simpa [hc] using hy)
  · intro t state source th now x hx
    unfold VideoRepository.resetStuckVideos at hx
    rw [List.mem_map] at hx
    obtain ⟨y, hy, rfl⟩ := hx
    by_cases hc : VideoRepository.stuckPred state source th now y = true
    · exact Or.inr (by simp [hc])
    · exact Or.inl (by simpa [hc] using hy)
  · intro t id reason
    unfold VideoRepository.markAsPermanentFailure
    rw [List.map_map]
    apply List.map_congr_left
    intro x _
    by_cases hc : x.id = id <;> simp [hc]

/-- Witness for C9: `resetRetryCount` on a one-row table stamps the new
timestamp on the touched row. -/
theorem claim_C9_witness :
    { sampleRow with retry_count := 0, updated_at := 9 } ∈ ([sampleRow] : VideoTable) ∨
    ({ sampleRow with retry_count := 0, updated_at := 9 } : VideoRow).updated_at = 9 :=
  claim_C9_updated_at_stamping.2.2.1 [sampleRow] "v1" 9
    { sampleRow with retry_count := 0, updated_at := 9 } (by decide)

end MiniStateAffairs
